import Mathlib

/-!
# Verification of the harper HAR analyser core

A shallow embedding of the harper repository's core: the HAR record schema
and lenient decoder (`src/har.rs`), the decode diagnostic built in
`parse_har` (`src/main.rs`), the time-window filter (`src/ops/filter.rs`),
the field search engine (`src/ops/search_for.rs`), and the domain hierarchy
aggregator.  JSON documents are modelled as trees (`Json`); machine floats
are modelled as exact rationals; Rust `panic!` and in-place mutation are
modelled with `Option` results and returned values.
-/

namespace Harper

/-- A JSON document tree.  `num` carries an exact rational in place of the
IEEE-754 doubles of `serde_json`; `str` covers both `Short` and `String`
variants of the `json` crate.  Objects keep their fields in source order and
may repeat a key; every lookup in this development takes the first
occurrence, matching the unique-key maps the Rust json libraries build. -/
inductive Json where
  | null
  | bool (b : Bool)
  | num (q : ℚ)
  | str (s : String)
  | arr (elems : List Json)
  | obj (fields : List (String × Json))

/-- First-occurrence lookup in an object's field list. -/
def lookupField (k : String) : List (String × Json) → Option Json
  | [] => none
  | (k', v) :: rest => if k' = k then some v else lookupField k rest

/-- Replace the value of the first occurrence of key `k`, keeping positions:
models `object.get_mut(k)` followed by writing through the reference. -/
def updateField (k : String) (x : Json) : List (String × Json) → List (String × Json)
  | [] => []
  | (k', v) :: rest => if k' = k then (k', x) :: rest else (k', v) :: updateField k x rest

/-- The `json` crate's infallible index operator `value[key]`: members of an
object, `Null` for a missing member or a non-object. -/
def Json.index (v : Json) (k : String) : Json :=
  match v with
  | .obj kvs => (lookupField k kvs).getD .null
  | _ => .null

/-- Contiguous-sublist check over characters. -/
def hasSub : List Char → List Char → Bool
  | [], ndl => ndl.isEmpty
  | c :: rest, ndl => ndl.isPrefixOf (c :: rest) || hasSub rest ndl

/-- Rust `haystack.contains(needle)`: substring containment. -/
def strContains (haystack needle : String) : Bool :=
  hasSub haystack.data needle.data

/-- Decimal rendering of the exact rationals standing in for JSON numbers;
integers render as Rust prints them, non-integral values keep the `Rat`
spelling (float formatting is outside the model). -/
def renderNum (q : ℚ) : String :=
  if q.den = 1 then toString q.num else toString q

/-- One character of the `json` crate's string escaping. -/
def escapeChar (c : Char) : String :=
  if c = '"' then "\\\""
  else if c = '\\' then "\\\\"
  else if c = '\n' then "\\n"
  else if c = '\r' then "\\r"
  else if c = '\t' then "\\t"
  else if c.toNat = 8 then "\\b"
  else if c.toNat = 12 then "\\f"
  else if c.toNat < 32 then "\\u00" ++ String.mk [Nat.digitChar (c.toNat / 16), Nat.digitChar (c.toNat % 16)]
  else String.mk [c]

/-- The `json` crate's escaped, quoted string serialization. -/
def escapeString (s : String) : String :=
  "\"" ++ String.join (s.data.map escapeChar) ++ "\""

mutual

/-- The `json` crate's compact serialization `JsonValue::dump`. -/
def Json.dump : Json → String
  | .null => "null"
  | .bool b => if b then "true" else "false"
  | .num q => renderNum q
  | .str s => escapeString s
  | .arr elems => "[" ++ dumpElems elems ++ "]"
  | .obj fields => "\x7b" ++ dumpFields fields ++ "\x7d"

def dumpElems : List Json → String
  | [] => ""
  | [j] => j.dump
  | j :: rest => j.dump ++ "," ++ dumpElems rest

def dumpFields : List (String × Json) → String
  | [] => ""
  | [(k, v)] => escapeString k ++ ":" ++ v.dump
  | (k, v) :: rest => escapeString k ++ ":" ++ v.dump ++ "," ++ dumpFields rest

end

/-- The `json` crate's `Display` (`.to_string()`): strings, numbers, booleans
and null print bare; arrays and objects print as their dump. -/
def Json.display : Json → String
  | .str s => s
  | .num q => renderNum q
  | .bool b => if b then "true" else "false"
  | .null => "null"
  | j => j.dump

/-! ## The HAR record schema (`src/har.rs`)

The structs of `har.rs`, with `serde` field names after the `camelCase`
rename (and the explicit `redirectURL` rename), and the decode semantics of
the derived `Deserialize` implementations: a struct decodes from an object;
a required field that is absent is a `missing field` error; an `Option`
field decodes to `none` when absent or `null`; the two
`deserialize_with = "deserialize_empty_object"` fields (`Entry.timings`,
`Response.content`) must be present and go through
`deserialize_empty_object`.  Unknown members are ignored. -/

structure Creator where
  name : String
  version : String
  comment : Option String
deriving DecidableEq

structure Browser where
  name : String
  version : String
  comment : Option String
deriving DecidableEq

structure PageTimings where
  on_content_load : Option ℚ
  on_load : Option ℚ
  comment : Option String
deriving DecidableEq

structure Page where
  started_date_time : String
  id : String
  title : String
  page_timings : PageTimings
  comment : Option String
deriving DecidableEq

structure Cookie where
  name : String
  value : String
  path : Option String
  domain : Option String
  expires : Option String
  http_only : Option Bool
  secure : Option Bool
  comment : Option String
deriving DecidableEq

structure Header where
  name : String
  value : String
  comment : Option String
deriving DecidableEq

structure QueryString where
  name : String
  value : String
  comment : Option String
deriving DecidableEq

structure Param where
  name : String
  value : Option String
  file_name : Option String
  content_type : Option String
  comment : Option String
deriving DecidableEq

structure PostData where
  mime_type : String
  params : Option (List Param)
  text : String
  comment : Option String
deriving DecidableEq

structure Content where
  size : ℤ
  compression : Option ℤ
  mime_type : Option String
  text : Option String
  encoding : Option String
  comment : Option String
deriving DecidableEq

structure Request where
  method : String
  url : String
  http_version : String
  cookies : List Cookie
  headers : List Header
  query_string : List QueryString
  post_data : Option PostData
  headers_size : ℤ
  body_size : ℤ
  comment : Option String
deriving DecidableEq

structure Response where
  status : ℕ
  status_text : String
  http_version : String
  cookies : List Cookie
  headers : List Header
  redirect_url : String
  content : Option Content
  headers_size : ℤ
  body_size : ℤ
  comment : Option String
deriving DecidableEq

structure CacheEntry where
  expires : Option String
  last_access : String
  e_tag : String
  hit_count : ℕ
  comment : Option String
deriving DecidableEq

structure Cache where
  before_request : Option CacheEntry
  after_request : Option CacheEntry
  comment : Option String
deriving DecidableEq

structure Timing where
  blocked : Option ℚ
  dns : Option ℚ
  connect : Option ℚ
  send : ℚ
  wait : ℚ
  receive : ℚ
  ssl : Option ℚ
  comment : Option String
deriving DecidableEq

structure Entry where
  pageref : Option String
  started_date_time : String
  time : ℚ
  request : Request
  response : Response
  cache : Cache
  timings : Option Timing
  server_ip_address : Option String
  connection : Option String
  comment : Option String
deriving DecidableEq

structure Log where
  version : String
  creator : Creator
  browser : Option Browser
  pages : Option (List Page)
  entries : List Entry
  comment : Option String
deriving DecidableEq

structure Har where
  log : Log
deriving DecidableEq

/-! ## Decoding -/

/-- Elementwise decoding of a list, stopping at the first error. -/
def mapE (f : α → Except String β) : List α → Except String (List β)
  | [] => .ok []
  | a :: rest => do
    let b ← f a
    let bs ← mapE f rest
    pure (b :: bs)

/-- A struct decodes only from an object. -/
def asObj : Json → Except String (List (String × Json))
  | .obj kvs => .ok kvs
  | _ => .error "invalid type: expected object"

/-- A required struct field: absent means a `missing field` error. -/
def reqField (kvs : List (String × Json)) (name : String)
    (dec : Json → Except String α) : Except String α :=
  match lookupField name kvs with
  | none => .error ("missing field `" ++ name ++ "`")
  | some j => dec j

/-- An `Option` struct field: `none` when absent or `null`. -/
def optField (kvs : List (String × Json)) (name : String)
    (dec : Json → Except String α) : Except String (Option α) :=
  match lookupField name kvs with
  | none => .ok none
  | some .null => .ok none
  | some j => (dec j).map some

def decStr : Json → Except String String
  | .str s => .ok s
  | _ => .error "invalid type: expected string"

def decBool : Json → Except String Bool
  | .bool b => .ok b
  | _ => .error "invalid type: expected boolean"

/-- An `f64` field, modelled as an exact rational. -/
def decF64 : Json → Except String ℚ
  | .num q => .ok q
  | _ => .error "invalid type: expected number"

/-- An `i64` field: an integral number within the 64-bit signed range. -/
def decI64 : Json → Except String ℤ
  | .num q =>
    if q.den = 1 ∧ -(2 ^ 63) ≤ q.num ∧ q.num < 2 ^ 63 then .ok q.num
    else .error "invalid value: expected i64"
  | _ => .error "invalid type: expected number"

/-- A `u16` field: an integral number within the 16-bit unsigned range. -/
def decU16 : Json → Except String ℕ
  | .num q =>
    if q.den = 1 ∧ 0 ≤ q.num ∧ q.num < 65536 then .ok q.num.toNat
    else .error "invalid value: expected u16"
  | _ => .error "invalid type: expected number"

/-- A `u32` field: an integral number within the 32-bit unsigned range. -/
def decU32 : Json → Except String ℕ
  | .num q =>
    if q.den = 1 ∧ 0 ≤ q.num ∧ q.num < 2 ^ 32 then .ok q.num.toNat
    else .error "invalid value: expected u32"
  | _ => .error "invalid type: expected number"

def decList (dec : Json → Except String α) : Json → Except String (List α)
  | .arr elems => mapE dec elems
  | _ => .error "invalid type: expected array"

/-- `har.rs`'s `deserialize_empty_object`: a structurally-empty mapping
becomes `none`; any other value is decoded normally, a success wrapped in
`some` and a failure wrapped in the custom error text. -/
def deserialize_empty_object (dec : Json → Except String α) (v : Json) :
    Except String (Option α) :=
  match v with
  | .obj [] => .ok none
  | _ =>
    match dec v with
    | .ok t => .ok (some t)
    | .error e => .error ("Failed to deserialize: " ++ e)

def decCreator (v : Json) : Except String Creator := do
  let kvs ← asObj v
  let name ← reqField kvs "name" decStr
  let version ← reqField kvs "version" decStr
  let comment ← optField kvs "comment" decStr
  pure ⟨name, version, comment⟩

def decBrowser (v : Json) : Except String Browser := do
  let kvs ← asObj v
  let name ← reqField kvs "name" decStr
  let version ← reqField kvs "version" decStr
  let comment ← optField kvs "comment" decStr
  pure ⟨name, version, comment⟩

def decPageTimings (v : Json) : Except String PageTimings := do
  let kvs ← asObj v
  let ocl ← optField kvs "onContentLoad" decF64
  let ol ← optField kvs "onLoad" decF64
  let comment ← optField kvs "comment" decStr
  pure ⟨ocl, ol, comment⟩

def decPage (v : Json) : Except String Page := do
  let kvs ← asObj v
  let sdt ← reqField kvs "startedDateTime" decStr
  let id ← reqField kvs "id" decStr
  let title ← reqField kvs "title" decStr
  let pt ← reqField kvs "pageTimings" decPageTimings
  let comment ← optField kvs "comment" decStr
  pure ⟨sdt, id, title, pt, comment⟩

def decCookie (v : Json) : Except String Cookie := do
  let kvs ← asObj v
  let name ← reqField kvs "name" decStr
  let value ← reqField kvs "value" decStr
  let path ← optField kvs "path" decStr
  let domain ← optField kvs "domain" decStr
  let expires ← optField kvs "expires" decStr
  let httpOnly ← optField kvs "httpOnly" decBool
  let secure ← optField kvs "secure" decBool
  let comment ← optField kvs "comment" decStr
  pure ⟨name, value, path, domain, expires, httpOnly, secure, comment⟩

def decHeader (v : Json) : Except String Header := do
  let kvs ← asObj v
  let name ← reqField kvs "name" decStr
  let value ← reqField kvs "value" decStr
  let comment ← optField kvs "comment" decStr
  pure ⟨name, value, comment⟩

def decQueryString (v : Json) : Except String QueryString := do
  let kvs ← asObj v
  let name ← reqField kvs "name" decStr
  let value ← reqField kvs "value" decStr
  let comment ← optField kvs "comment" decStr
  pure ⟨name, value, comment⟩

def decParam (v : Json) : Except String Param := do
  let kvs ← asObj v
  let name ← reqField kvs "name" decStr
  let value ← optField kvs "value" decStr
  let fileName ← optField kvs "fileName" decStr
  let contentType ← optField kvs "contentType" decStr
  let comment ← optField kvs "comment" decStr
  pure ⟨name, value, fileName, contentType, comment⟩

def decPostData (v : Json) : Except String PostData := do
  let kvs ← asObj v
  let mimeType ← reqField kvs "mimeType" decStr
  let params ← optField kvs "params" (decList decParam)
  let text ← reqField kvs "text" decStr
  let comment ← optField kvs "comment" decStr
  pure ⟨mimeType, params, text, comment⟩

def decContent (v : Json) : Except String Content := do
  let kvs ← asObj v
  let size ← reqField kvs "size" decI64
  let compression ← optField kvs "compression" decI64
  let mimeType ← optField kvs "mimeType" decStr
  let text ← optField kvs "text" decStr
  let encoding ← optField kvs "encoding" decStr
  let comment ← optField kvs "comment" decStr
  pure ⟨size, compression, mimeType, text, encoding, comment⟩

def decRequest (v : Json) : Except String Request := do
  let kvs ← asObj v
  let method ← reqField kvs "method" decStr
  let url ← reqField kvs "url" decStr
  let httpVersion ← reqField kvs "httpVersion" decStr
  let cookies ← reqField kvs "cookies" (decList decCookie)
  let headers ← reqField kvs "headers" (decList decHeader)
  let queryString ← reqField kvs "queryString" (decList decQueryString)
  let postData ← optField kvs "postData" decPostData
  let headersSize ← reqField kvs "headersSize" decI64
  let bodySize ← reqField kvs "bodySize" decI64
  let comment ← optField kvs "comment" decStr
  pure ⟨method, url, httpVersion, cookies, headers, queryString, postData,
    headersSize, bodySize, comment⟩

def decResponse (v : Json) : Except String Response := do
  let kvs ← asObj v
  let status ← reqField kvs "status" decU16
  let statusText ← reqField kvs "statusText" decStr
  let httpVersion ← reqField kvs "httpVersion" decStr
  let cookies ← reqField kvs "cookies" (decList decCookie)
  let headers ← reqField kvs "headers" (decList decHeader)
  let redirectUrl ← reqField kvs "redirectURL" decStr
  let content ← reqField kvs "content" (deserialize_empty_object decContent)
  let headersSize ← reqField kvs "headersSize" decI64
  let bodySize ← reqField kvs "bodySize" decI64
  let comment ← optField kvs "comment" decStr
  pure ⟨status, statusText, httpVersion, cookies, headers, redirectUrl,
    content, headersSize, bodySize, comment⟩

def decCacheEntry (v : Json) : Except String CacheEntry := do
  let kvs ← asObj v
  let expires ← optField kvs "expires" decStr
  let lastAccess ← reqField kvs "lastAccess" decStr
  let eTag ← reqField kvs "eTag" decStr
  let hitCount ← reqField kvs "hitCount" decU32
  let comment ← optField kvs "comment" decStr
  pure ⟨expires, lastAccess, eTag, hitCount, comment⟩

def decCache (v : Json) : Except String Cache := do
  let kvs ← asObj v
  let beforeRequest ← optField kvs "beforeRequest" decCacheEntry
  let afterRequest ← optField kvs "afterRequest" decCacheEntry
  let comment ← optField kvs "comment" decStr
  pure ⟨beforeRequest, afterRequest, comment⟩

def decTiming (v : Json) : Except String Timing := do
  let kvs ← asObj v
  let blocked ← optField kvs "blocked" decF64
  let dns ← optField kvs "dns" decF64
  let connect ← optField kvs "connect" decF64
  let send ← reqField kvs "send" decF64
  let wait ← reqField kvs "wait" decF64
  let receive ← reqField kvs "receive" decF64
  let ssl ← optField kvs "ssl" decF64
  let comment ← optField kvs "comment" decStr
  pure ⟨blocked, dns, connect, send, wait, receive, ssl, comment⟩

def decEntry (v : Json) : Except String Entry := do
  let kvs ← asObj v
  let pageref ← optField kvs "pageref" decStr
  let sdt ← reqField kvs "startedDateTime" decStr
  let time ← reqField kvs "time" decF64
  let request ← reqField kvs "request" decRequest
  let response ← reqField kvs "response" decResponse
  let cache ← reqField kvs "cache" decCache
  let timings ← reqField kvs "timings" (deserialize_empty_object decTiming)
  let serverIpAddress ← optField kvs "serverIpAddress" decStr
  let connection ← optField kvs "connection" decStr
  let comment ← optField kvs "comment" decStr
  pure ⟨pageref, sdt, time, request, response, cache, timings,
    serverIpAddress, connection, comment⟩

def decLog (v : Json) : Except String Log := do
  let kvs ← asObj v
  let version ← reqField kvs "version" decStr
  let creator ← reqField kvs "creator" decCreator
  let browser ← optField kvs "browser" decBrowser
  let pages ← optField kvs "pages" (decList decPage)
  let entries ← reqField kvs "entries" (decList decEntry)
  let comment ← optField kvs "comment" decStr
  pure ⟨version, creator, browser, pages, entries, comment⟩

/-- Decoding a document into a `Har`: the model of
`serde_json::from_str::<Har>` applied to an already-wellformed JSON tree. -/
def decHar (v : Json) : Except String Har := do
  let kvs ← asObj v
  let log ← reqField kvs "log" decLog
  pure ⟨log⟩

/-! ## Encoding

The derived `Serialize` implementations: every field in declaration order
under its serde name, `Option` fields as `null` when `None`. -/

def encOpt (enc : α → Json) : Option α → Json
  | none => .null
  | some a => enc a

def encCreator (c : Creator) : Json :=
  .obj [("name", .str c.name), ("version", .str c.version),
    ("comment", encOpt .str c.comment)]

def encBrowser (b : Browser) : Json :=
  .obj [("name", .str b.name), ("version", .str b.version),
    ("comment", encOpt .str b.comment)]

def encPageTimings (p : PageTimings) : Json :=
  .obj [("onContentLoad", encOpt .num p.on_content_load),
    ("onLoad", encOpt .num p.on_load), ("comment", encOpt .str p.comment)]

def encPage (p : Page) : Json :=
  .obj [("startedDateTime", .str p.started_date_time), ("id", .str p.id),
    ("title", .str p.title), ("pageTimings", encPageTimings p.page_timings),
    ("comment", encOpt .str p.comment)]

def encCookie (c : Cookie) : Json :=
  .obj [("name", .str c.name), ("value", .str c.value),
    ("path", encOpt .str c.path), ("domain", encOpt .str c.domain),
    ("expires", encOpt .str c.expires), ("httpOnly", encOpt .bool c.http_only),
    ("secure", encOpt .bool c.secure), ("comment", encOpt .str c.comment)]

def encHeader (h : Header) : Json :=
  .obj [("name", .str h.name), ("value", .str h.value),
    ("comment", encOpt .str h.comment)]

def encQueryString (q : QueryString) : Json :=
  .obj [("name", .str q.name), ("value", .str q.value),
    ("comment", encOpt .str q.comment)]

def encParam (p : Param) : Json :=
  .obj [("name", .str p.name), ("value", encOpt .str p.value),
    ("fileName", encOpt .str p.file_name),
    ("contentType", encOpt .str p.content_type),
    ("comment", encOpt .str p.comment)]

def encPostData (p : PostData) : Json :=
  .obj [("mimeType", .str p.mime_type),
    ("params", encOpt (fun l => .arr (l.map encParam)) p.params),
    ("text", .str p.text), ("comment", encOpt .str p.comment)]

def encContent (c : Content) : Json :=
  .obj [("size", .num c.size),
    ("compression", encOpt (fun z => .num z) c.compression),
    ("mimeType", encOpt .str c.mime_type), ("text", encOpt .str c.text),
    ("encoding", encOpt .str c.encoding), ("comment", encOpt .str c.comment)]

def encRequest (r : Request) : Json :=
  .obj [("method", .str r.method), ("url", .str r.url),
    ("httpVersion", .str r.http_version),
    ("cookies", .arr (r.cookies.map encCookie)),
    ("headers", .arr (r.headers.map encHeader)),
    ("queryString", .arr (r.query_string.map encQueryString)),
    ("postData", encOpt encPostData r.post_data),
    ("headersSize", .num r.headers_size), ("bodySize", .num r.body_size),
    ("comment", encOpt .str r.comment)]

def encResponse (r : Response) : Json :=
  .obj [("status", .num r.status), ("statusText", .str r.status_text),
    ("httpVersion", .str r.http_version),
    ("cookies", .arr (r.cookies.map encCookie)),
    ("headers", .arr (r.headers.map encHeader)),
    ("redirectURL", .str r.redirect_url),
    ("content", encOpt encContent r.content),
    ("headersSize", .num r.headers_size), ("bodySize", .num r.body_size),
    ("comment", encOpt .str r.comment)]

def encCacheEntry (c : CacheEntry) : Json :=
  .obj [("expires", encOpt .str c.expires), ("lastAccess", .str c.last_access),
    ("eTag", .str c.e_tag), ("hitCount", .num c.hit_count),
    ("comment", encOpt .str c.comment)]

def encCache (c : Cache) : Json :=
  .obj [("beforeRequest", encOpt encCacheEntry c.before_request),
    ("afterRequest", encOpt encCacheEntry c.after_request),
    ("comment", encOpt .str c.comment)]

def encTiming (t : Timing) : Json :=
  .obj [("blocked", encOpt .num t.blocked), ("dns", encOpt .num t.dns),
    ("connect", encOpt .num t.connect), ("send", .num t.send),
    ("wait", .num t.wait), ("receive", .num t.receive),
    ("ssl", encOpt .num t.ssl), ("comment", encOpt .str t.comment)]

def encEntry (e : Entry) : Json :=
  .obj [("pageref", encOpt .str e.pageref),
    ("startedDateTime", .str e.started_date_time), ("time", .num e.time),
    ("request", encRequest e.request), ("response", encResponse e.response),
    ("cache", encCache e.cache), ("timings", encOpt encTiming e.timings),
    ("serverIpAddress", encOpt .str e.server_ip_address),
    ("connection", encOpt .str e.connection),
    ("comment", encOpt .str e.comment)]

def encLog (l : Log) : Json :=
  .obj [("version", .str l.version), ("creator", encCreator l.creator),
    ("browser", encOpt encBrowser l.browser),
    ("pages", encOpt (fun ps => .arr (ps.map encPage)) l.pages),
    ("entries", .arr (l.entries.map encEntry)),
    ("comment", encOpt .str l.comment)]

/-- Re-encoding a `Har` into a document: the model of `serde_json` `Serialize`. -/
def encHar (h : Har) : Json :=
  .obj [("log", encLog h.log)]

/-! ## The decode diagnostic of `parse_har` (`src/main.rs`)

On a decode failure at 1-based line `line` and column `column`, `parse_har`
collects `input.lines()`, slices a context window around the failure line
with saturating arithmetic, and builds a context string that reproduces each
window line and inserts a caret pointer directly beneath the failure line.
Terminal colour codes are outside the model. -/

/-- Split a character list at every occurrence of a separator; always at
least one (possibly empty) piece, like Rust `str::split`. -/
def splitChar (sep : Char) : List Char → List (List Char)
  | [] => [[]]
  | c :: rest =>
    match splitChar sep rest with
    | [] => [[]]
    | l :: ls => if c = sep then [] :: l :: ls else (c :: l) :: ls

/-- Strip one trailing carriage return. -/
def stripCR (l : List Char) : List Char :=
  if l.getLast? = some '\r' then l.dropLast else l

/-- Rust `str::lines()`: split on `'\n'`, no final empty line for a trailing
newline, one trailing `'\r'` stripped per line. -/
def rustLines (s : String) : List String :=
  let parts := splitChar '\n' s.data
  let parts := if parts.getLast? = some [] then parts.dropLast else parts
  parts.map fun l => String.mk (stripCR l)

/-- `start = line_index.saturating_sub(5)` with `line_index = line.saturating_sub(1)`. -/
def windowStart (line : ℕ) : ℕ := line - 1 - 5

/-- `end = (line_index + 5).min(lines.len())`. -/
def windowStop (len line : ℕ) : ℕ := min (line - 1 + 5) len

/-- `lines.get(start..end).unwrap_or_default()`: the window slice, empty when
the range is invalid. -/
def contextLinesOf (input : String) (line : ℕ) : List String :=
  let lines := rustLines input
  let s := windowStart line
  let e := windowStop lines.length line
  if s ≤ e then (lines.drop s).take (e - s) else []

/-- The caret pointer: `column.saturating_sub(1)` spaces, then the caret and
its label. -/
def pointerStr (column : ℕ) : String :=
  String.mk (List.replicate (column - 1) ' ') ++ "^-- Error occurred here"

/-- Rust `String::pop`: remove the last character. -/
def popChar (s : String) : String := String.mk s.data.dropLast

/-- Rust `s.ends_with(c)` for a single character. -/
def endsWithChar (s : String) (c : Char) : Bool := s.data.getLast? = some c

/-- The context block of the diagnostic: each window line followed by a
newline, the pointer line inserted right after the failure line, and one
trailing newline popped at the end. -/
def contextStr (input : String) (line column : ℕ) : String :=
  let w := contextLinesOf input line
  let k := line - 1 - windowStart line
  let s := w.enum.foldl
    (fun acc il =>
      let acc := acc ++ il.2 ++ "\n"
      if il.1 = k then acc ++ pointerStr column ++ "\n" else acc)
    ""
  if endsWithChar s '\n' then popChar s else s

/-! ## The time-window filter (`src/ops/filter.rs`)

`filter_by_time` requires the document to be an object holding a `log`
object holding an `entries` array, returning `None` otherwise; it retains
exactly the entries that are objects whose `startedDateTime` member is a
string that parses, and whose parsed time is on the kept side of the bound.
The RFC 3339 parser of `chrono` is an external collaborator, abstracted as
`parse` into a linearly ordered time type; in-place mutation is modelled by
returning the updated document. -/

/-- The `retain` predicate of `filter_by_time`. -/
def keepEntry {τ : Type} [LinearOrder τ] (parse : String → Option τ)
    (time : τ) (after : Bool) (entry : Json) : Bool :=
  match entry with
  | .obj ekvs =>
    match lookupField "startedDateTime" ekvs with
    | some (.str s) =>
      match parse s with
      | some t => if after then decide (time ≤ t) else decide (t ≤ time)
      | none => false
    | _ => false
  | _ => false

def filter_by_time {τ : Type} [LinearOrder τ] (parse : String → Option τ)
    (v : Json) (time : τ) (after : Bool) : Option Json :=
  match v with
  | .obj kvs =>
    match lookupField "log" kvs with
    | some (.obj lkvs) =>
      match lookupField "entries" lkvs with
      | some (.arr entries) =>
        some (.obj (updateField "log"
          (.obj (updateField "entries"
            (.arr (entries.filter (keepEntry parse time after))) lkvs)) kvs))
      | _ => none
    | _ => none
  | _ => none

/-! ## The field search engine (`src/ops/search_for.rs`) -/

structure SearchResult where
  request_num : ℕ
  time : String
  url : String
  method : String
  in_fields : List String
  request_json : Json

/-- The per-entry body of `search_for`'s loop: serialize the fifteen named
fields, test each for the query, collect the matching names in declaration
order, and keep the entry only when at least one matched. -/
def processEntry (s : String) (i : ℕ) (entry : Json) : Option SearchResult :=
  let time := (entry.index "startedDateTime").display
  let request := entry.index "request"
  let method := (request.index "method").display
  let url := (request.index "url").display
  let http_ver := (request.index "httpVersion").display
  let headers_str := (request.index "headers").display
  let cookies_str := (request.index "cookies").display
  let query_str := (request.index "queryString").display
  let post_data_str := (request.index "postData").display
  let response := entry.index "response"
  let status := (response.index "status").display
  let status_text := (response.index "statusText").display
  let response_http_ver := (response.index "httpVersion").display
  let response_headers_str := (response.index "headers").display
  let response_cookies_str := (response.index "cookies").display
  let content_str := (response.index "content").display
  let redirect_url := (response.index "redirectURL").display
  let in_fields : List String :=
    (if strContains time s then ["time"] else []) ++
    ((if strContains method s then ["request_method"] else []) ++
    ((if strContains url s then ["request_url"] else []) ++
    ((if strContains http_ver s then ["request_http_version"] else []) ++
    ((if strContains headers_str s then ["request_headers"] else []) ++
    ((if strContains cookies_str s then ["request_cookies"] else []) ++
    ((if strContains query_str s then ["request_query_string"] else []) ++
    ((if strContains post_data_str s then ["request_post_data"] else []) ++
    ((if strContains status s then ["response_status"] else []) ++
    ((if strContains status_text s then ["response_status_text"] else []) ++
    ((if strContains response_http_ver s then ["response_http_version"] else []) ++
    ((if strContains response_headers_str s then ["response_headers"] else []) ++
    ((if strContains response_cookies_str s then ["response_cookies"] else []) ++
    ((if strContains content_str s then ["response_content"] else []) ++
    ((if strContains redirect_url s then ["response_redirect_url"] else []) ++
    ([] : List String)))))))))))))))
  if in_fields.isEmpty then none
  else some ⟨i + 1, time, url, method, in_fields, request⟩

/-- `search_for`: `None` models the `panic!("Invalid HAR file.")` branch
taken when `value["log"]["entries"]` is not an array. -/
def search_for (v : Json) (s : String) : Option (List SearchResult) :=
  match (v.index "log").index "entries" with
  | .arr entries => some (entries.enum.filterMap fun ie => processEntry s ie.1 ie.2)
  | _ => none

/-! ## The domain hierarchy aggregator

Modelled from the spec: the final-generation aggregation engine —
`count_urls::DomainNode`, `count_urls::build_domain_tree` and the
domain-path decomposition the spec describes — is called from `main.rs` but
its source file is not part of the sources (the `count_urls.rs` present is a
superseded generation with a different interface).  The definitions below
follow the spec's aggregation algorithm word for word: URL parsing and TLD
extraction are external collaborators, abstracted as the `parseUrl` and
`extract` parameters. -/

/-- Modelled from the spec: the TLD-extraction collaborator's result,
`{suffix?, domain?, subdomain?}`. -/
structure TldResult where
  suffix : Option String
  domain : Option String
  subdomain : Option String

/-- Modelled from the spec: a parsed URL's host, either a literal IP
address (v4 or v6) or a host name. -/
inductive UrlHost where
  | ip (addr : String)
  | name (host : String)

/-- Modelled from the spec: the part of a parsed URL the aggregator
consumes — its scheme and optional host. -/
structure ParsedUrl where
  scheme : String
  host : Option UrlHost

/-- Modelled from the spec: the non-fatal per-entry warnings the aggregator
surfaces. -/
inductive UrlWarning where
  | unparseableUrl (url : String)
  | tldFailed (host : String)
deriving DecidableEq

/-- Modelled from the spec: a counting tree node — a visit count and the
children keyed by path component. -/
inductive DomainNode where
  | node (count : ℕ) (children : List (String × DomainNode))

def DomainNode.count : DomainNode → ℕ
  | .node c _ => c

def DomainNode.children : DomainNode → List (String × DomainNode)
  | .node _ ch => ch

def lookupChild (k : String) : List (String × DomainNode) → Option DomainNode
  | [] => none
  | (k', v) :: rest => if k' = k then some v else lookupChild k rest

def setChild (k : String) (x : DomainNode) :
    List (String × DomainNode) → List (String × DomainNode)
  | [] => [(k, x)]
  | (k', v) :: rest => if k' = k then (k', x) :: rest else (k', v) :: setChild k x rest

/-- Modelled from the spec: walk the tree along the component path, creating
each child if absent and incrementing that child's count at every level. -/
def insertPath (t : DomainNode) : List String → DomainNode
  | [] => t
  | comp :: rest =>
    let child := (lookupChild comp t.children).getD (.node 0 [])
    let child := DomainNode.node (child.count + 1) child.children
    .node t.count (setChild comp (insertPath child rest) t.children)

/-- The dotted labels of a host fragment. -/
def dottedLabels (s : String) : List String :=
  (splitChar '.' s.data).map String.mk

/-- Modelled from the spec: the subdomain labels in reverse dotted order, or
a single empty-string component when there is no subdomain. -/
def subdomainComponents : Option String → List String
  | none => [""]
  | some sub => (dottedLabels sub).reverse

/-- Modelled from the spec: the merge policy's combined
`"<domain>.<suffix>"` component, or just whichever of the two is present. -/
def mergedHead (r : TldResult) : List String :=
  match r.domain, r.suffix with
  | some d, some s => [d ++ "." ++ s]
  | some d, none => [d]
  | none, some s => [s]
  | none, none => []

/-- Modelled from the spec: merge policy components. -/
def mergeComponents (r : TldResult) : List String :=
  mergedHead r ++ subdomainComponents r.subdomain

/-- Modelled from the spec: split policy components — suffix, then domain,
then the subdomain labels. -/
def splitComponents (r : TldResult) : List String :=
  r.suffix.toList ++ r.domain.toList ++ subdomainComponents r.subdomain

/-- Modelled from the spec: the active policy's components, with the
`"unknown"` fallback when decomposition yields zero components. -/
def policyComponents (merge : Bool) (r : TldResult) : List String :=
  let comps := if merge then mergeComponents r else splitComponents r
  if comps = [] then ["unknown"] else comps

/-- Modelled from the spec: one entry's domain-path, or a skip.  Step by
step: an unparseable URL (or a non-`data` URL without a host) is skipped
with a warning; a `data`-scheme URL is the synthetic component `"data:"`; an
IP-literal host is the synthetic component `"ip:<address>"`; otherwise the
host goes through TLD extraction, a structural extraction failure falling
back to `"invalid:<host>"` with a warning. -/
def domainPath (parseUrl : String → Option ParsedUrl)
    (extract : String → Except Unit TldResult) (merge : Bool) (url : String) :
    Option (List String) × List UrlWarning :=
  match parseUrl url with
  | none => (none, [.unparseableUrl url])
  | some pu =>
    if pu.scheme = "data" then (some ["data:"], [])
    else
      match pu.host with
      | none => (none, [.unparseableUrl url])
      | some (.ip addr) => (some ["ip:" ++ addr], [])
      | some (.name h) =>
        match extract h with
        | .ok r => (some (policyComponents merge r), [])
        | .error _ => (some ["invalid:" ++ h], [.tldFailed h])

/-- Modelled from the spec: `build_domain_tree` — fold every request URL's
domain-path into the counting tree, accumulating the non-fatal warnings; a
skipped entry leaves the tree untouched and the fold always continues with
the remaining entries. -/
def build_domain_tree (parseUrl : String → Option ParsedUrl)
    (extract : String → Except Unit TldResult) (merge : Bool) :
    List String → DomainNode → DomainNode × List UrlWarning
  | [], t => (t, [])
  | url :: rest, t =>
    match domainPath parseUrl extract merge url with
    | (none, ws) =>
      let (t', ws') := build_domain_tree parseUrl extract merge rest t
      (t', ws ++ ws')
    | (some comps, ws) =>
      let (t', ws') := build_domain_tree parseUrl extract merge rest (insertPath t comps)
      (t', ws ++ ws')

/-- Modelled from the spec: `aggregate(entries, policy)` — the aggregator
consumes the decoded entry list through each entry's request URL. -/
def aggregateEntries (parseUrl : String → Option ParsedUrl)
    (extract : String → Except Unit TldResult) (merge : Bool)
    (entries : List Entry) (root : DomainNode) : DomainNode × List UrlWarning :=
  build_domain_tree parseUrl extract merge (entries.map fun e => e.request.url) root

/-! ## Shared helper lemmas -/

/-- The successful branch of an `Except` as an `Option`. -/
def okOf : Except String α → Option α
  | .ok a => some a
  | .error _ => none

theorem exbind_ok {x : Except String α} {f : α → Except String β} {b : β}
    (h : x >>= f = .ok b) : ∃ a, x = .ok a ∧ f a = .ok b := by
  cases x with
  | ok a => exact ⟨a, rfl, h⟩
  | error e => exact absurd h (by simp [Bind.bind, Except.bind])

theorem asObj_ok {v : Json} {kvs : List (String × Json)}
    (h : asObj v = .ok kvs) : v = .obj kvs := by
  cases v <;> simp [asObj] at h ⊢ <;> exact h

theorem reqField_ok {kvs : List (String × Json)} {name : String}
    {dec : Json → Except String α} {a : α} (h : reqField kvs name dec = .ok a) :
    ∃ j, lookupField name kvs = some j ∧ dec j = .ok a := by
  unfold reqField at h
  cases hl : lookupField name kvs with
  | none => rw [hl] at h; exact absurd h (by simp)
  | some j => rw [hl] at h; exact ⟨j, rfl, h⟩

theorem decList_ok {dec : Json → Except String α} {v : Json} {l : List α}
    (h : decList dec v = .ok l) : ∃ elems, v = .arr elems ∧ mapE dec elems = .ok l := by
  cases v <;> simp [decList] at h ⊢ <;> exact h

theorem mapE_ok_length {f : α → Except String β} {l : List α} {l' : List β}
    (h : mapE f l = .ok l') : l'.length = l.length := by
  induction l generalizing l' with
  | nil => simp [mapE] at h; simp [← h]
  | cons a rest ih =>
    simp only [mapE] at h
    obtain ⟨b, hb, h⟩ := exbind_ok h
    obtain ⟨bs, hbs, h⟩ := exbind_ok h
    simp [pure, Except.pure] at h
    simp [← h, ih hbs]

theorem mapE_ok_get {f : α → Except String β} {l : List α} {l' : List β}
    (h : mapE f l = .ok l') :
    ∀ i, (l.get? i).bind (fun a => okOf (f a)) = l'.get? i := by
  induction l generalizing l' with
  | nil =>
    simp only [mapE] at h
    cases h
    intro i
    simp
  | cons a rest ih =>
    simp only [mapE] at h
    obtain ⟨b, hb, h⟩ := exbind_ok h
    obtain ⟨bs, hbs, h⟩ := exbind_ok h
    simp [pure, Except.pure] at h
    intro i
    cases i with
    | zero => simp [← h, hb, okOf]
    | succ n => simpa [← h] using ih hbs n

theorem lookup_update_hit {kvs : List (String × Json)} {k : String} {j : Json}
    (x : Json) (h : lookupField k kvs = some j) :
    lookupField k (updateField k x kvs) = some x := by
  induction kvs with
  | nil => simp [lookupField] at h
  | cons kv rest ih =>
    obtain ⟨k', v⟩ := kv
    by_cases hk : k' = k
    · simp [lookupField, updateField, hk]
    · simp only [lookupField, updateField, if_neg hk] at h ⊢
      exact ih h

/-! ## C1 — the empty-object leniency of `deserialize_empty_object` -/

theorem deo_not_empty (dec : Json → Except String α) (v : Json)
    (hv : v ≠ Json.obj []) :
    deserialize_empty_object dec v =
      match dec v with
      | .ok t => .ok (some t)
      | .error e => .error ("Failed to deserialize: " ++ e) := by
  cases v with
  | obj fields =>
    cases fields with
    | nil => exact absurd rfl hv
    | cons a rest => rfl
  | null => rfl
  | bool b => rfl
  | num q => rfl
  | str s => rfl
  | arr elems => rfl

/-- C1: a Timing or Content field present as a structurally-valid empty
mapping decodes to `None` and never to a decode error; any other shape of
the raw value decodes normally — `Some` of a valid value on success, a
normal failure otherwise (in particular a non-empty malformed object still
fails). -/
theorem c1_empty_object_leniency (α : Type) (dec : Json → Except String α) (v : Json) :
    (v = Json.obj [] → deserialize_empty_object dec v = .ok none) ∧
    (v ≠ Json.obj [] →
      (∀ t, dec v = .ok t → deserialize_empty_object dec v = .ok (some t)) ∧
      (∀ e, dec v = .error e →
        deserialize_empty_object dec v = .error ("Failed to deserialize: " ++ e))) := by
  refine ⟨fun hv => by rw [hv]; rfl, fun hv => ⟨fun t ht => ?_, fun e he => ?_⟩⟩
  · rw [deo_not_empty dec v hv, ht]
  · rw [deo_not_empty dec v hv, he]

theorem c1_empty_object_leniency_witness :
    deserialize_empty_object decTiming (Json.obj []) = .ok none ∧
    deserialize_empty_object decContent (Json.obj []) = .ok none ∧
    deserialize_empty_object decContent (Json.obj [("size", Json.num 0)]) =
      .ok (some ⟨0, none, none, none, none, none⟩) ∧
    deserialize_empty_object decContent (Json.obj [("bogus", Json.null)]) =
      .error ("Failed to deserialize: " ++ "missing field `size`") :=
  ⟨(c1_empty_object_leniency Timing decTiming (Json.obj [])).1 rfl,
   (c1_empty_object_leniency Content decContent (Json.obj [])).1 rfl,
   ((c1_empty_object_leniency Content decContent (Json.obj [("size", Json.num 0)])).2
      (by simp)).1 _ (by rfl),
   ((c1_empty_object_leniency Content decContent (Json.obj [("bogus", Json.null)])).2
      (by simp)).2 _ (by rfl)⟩

/-! ## C5 — the `data:` and `ip:` synthetic components -/

/-- C5: an entry whose URL has the literal `data` scheme gets the single
synthetic component `"data:"`; an entry whose URL host is a literal IP
address gets the single synthetic component `"ip:<address>"`. -/
theorem c5_synthetic_components (parseUrl : String → Option ParsedUrl)
    (extract : String → Except Unit TldResult) (merge : Bool)
    (url : String) (pu : ParsedUrl) (hp : parseUrl url = some pu) :
    (pu.scheme = "data" →
      domainPath parseUrl extract merge url = (some ["data:"], [])) ∧
    (∀ addr, pu.scheme ≠ "data" → pu.host = some (.ip addr) →
      domainPath parseUrl extract merge url = (some ["ip:" ++ addr], [])) := by
  constructor
  · intro hs
    simp only [domainPath, hp, if_pos hs]
  · intro addr hs hh
    simp only [domainPath, hp, if_neg hs, hh]

def c5ParseUrl : String → Option ParsedUrl := fun url =>
  if url = "data:text/plain;base64,AA" then some ⟨"data", none⟩
  else if url = "https://203.0.113.5/w" then some ⟨"https", some (.ip "203.0.113.5")⟩
  else none

def c5Extract : String → Except Unit TldResult := fun _ => .error ()

theorem c5_synthetic_components_witness :
    domainPath c5ParseUrl c5Extract true "data:text/plain;base64,AA" =
      (some ["data:"], []) ∧
    domainPath c5ParseUrl c5Extract true "https://203.0.113.5/w" =
      (some ["ip:203.0.113.5"], []) :=
  ⟨(c5_synthetic_components c5ParseUrl c5Extract true "data:text/plain;base64,AA"
      ⟨"data", none⟩ rfl).1 rfl,
   (c5_synthetic_components c5ParseUrl c5Extract true "https://203.0.113.5/w"
      ⟨"https", some (.ip "203.0.113.5")⟩ rfl).2 "203.0.113.5" (by simp) rfl⟩

/-! ## C2 — the merge policy's domain-path components -/

theorem splitChar_ne_nil (sep : Char) (l : List Char) : splitChar sep l ≠ [] := by
  cases l with
  | nil => simp [splitChar]
  | cons c rest =>
    unfold splitChar
    cases hsc : splitChar sep rest with
    | nil => simp
    | cons x xs =>
      dsimp only
      split <;> simp

theorem subdomainComponents_ne_nil (o : Option String) : subdomainComponents o ≠ [] := by
  cases o with
  | none => simp [subdomainComponents]
  | some sub =>
    simp only [subdomainComponents, dottedLabels, ne_eq, List.reverse_eq_nil_iff,
      List.map_eq_nil]
    exact splitChar_ne_nil '.' sub.data

/-- C2: under the merge policy, a host whose TLD extraction succeeds yields
the combined first component `"<domain>.<suffix>"` — or just whichever of
the two is present — followed by one component per subdomain label in
reverse dotted order, or a single empty-string component when there is no
subdomain. -/
theorem c2_merge_policy (parseUrl : String → Option ParsedUrl)
    (extract : String → Except Unit TldResult) (url : String)
    (pu : ParsedUrl) (h : String) (r : TldResult)
    (hp : parseUrl url = some pu) (hs : pu.scheme ≠ "data")
    (hh : pu.host = some (.name h)) (he : extract h = .ok r) :
    (domainPath parseUrl extract true url).1 = some (
      (match r.domain, r.suffix with
        | some d, some sfx => [d ++ "." ++ sfx]
        | some d, none => [d]
        | none, some sfx => [sfx]
        | none, none => []) ++
      (match r.subdomain with
        | some sub => (dottedLabels sub).reverse
        | none => [""])) := by
  simp only [domainPath, hp, if_neg hs, hh, he]
  show some (policyComponents true r) = _
  unfold policyComponents
  rw [if_pos rfl, if_neg]
  · obtain ⟨sfx, dom, sub⟩ := r
    unfold mergeComponents mergedHead subdomainComponents
    cases dom <;> cases sfx <;> cases sub <;> rfl
  · unfold mergeComponents
    intro hmc
    exact subdomainComponents_ne_nil r.subdomain (List.append_eq_nil.mp hmc).2

def c2ParseUrl : String → Option ParsedUrl := fun url =>
  if url = "https://a.b.example.com/x" then
    some ⟨"https", some (.name "a.b.example.com")⟩
  else none

def c2Extract : String → Except Unit TldResult := fun h =>
  if h = "a.b.example.com" then .ok ⟨some "com", some "example", some "a.b"⟩
  else .error ()

theorem c2_merge_policy_witness :
    (domainPath c2ParseUrl c2Extract true "https://a.b.example.com/x").1 =
      some ["example.com", "b", "a"] := by
  have := c2_merge_policy c2ParseUrl c2Extract "https://a.b.example.com/x"
    ⟨"https", some (.name "a.b.example.com")⟩ "a.b.example.com"
    ⟨some "com", some "example", some "a.b"⟩ rfl (by simp) rfl rfl
  rw [this]
  rfl

/-! ## C8 — per-entry failure handling in the aggregator -/

def c8ParseUrl : String → Option ParsedUrl := fun url =>
  if url = "unparseable" then none else some ⟨"https", some (.name url)⟩

def c8Extract : String → Except Unit TldResult := fun _ => .error ()

/-- C8 counterexample: an entry whose TLD extraction fails is NOT skipped —
the run with it produces a different tree than the run without it, because
the entry is recorded under the fallback component `"invalid:<host>"` (the
claim's "skips that entry only" is false for TLD-extraction failures). -/
theorem c8_counterexample :
    (build_domain_tree c8ParseUrl c8Extract true ["bad.example"] (.node 0 [])).1 =
      .node 0 [("invalid:bad.example", .node 1 [])] ∧
    (build_domain_tree c8ParseUrl c8Extract true [] (.node 0 [])).1 = .node 0 [] ∧
    DomainNode.node 0 [("invalid:bad.example", .node 1 [])] ≠ DomainNode.node 0 [] ∧
    (build_domain_tree c8ParseUrl c8Extract true ["bad.example"] (.node 0 [])).2 =
      [.tldFailed "bad.example"] :=
  ⟨rfl, rfl, by simp, rfl⟩

/-- C8 (amended): an entry whose URL is unparseable is skipped — the tree is
untouched — with a non-fatal warning; an entry whose TLD extraction fails
surfaces a non-fatal warning and is recorded under the single fallback
component `"invalid:<host>"`; in both cases the aggregation continues with
all remaining entries and never aborts. -/
theorem c8_per_entry_failures (parseUrl : String → Option ParsedUrl)
    (extract : String → Except Unit TldResult) (merge : Bool)
    (url : String) (rest : List String) (t : DomainNode) :
    (parseUrl url = none →
      build_domain_tree parseUrl extract merge (url :: rest) t =
        ((build_domain_tree parseUrl extract merge rest t).1,
         .unparseableUrl url :: (build_domain_tree parseUrl extract merge rest t).2)) ∧
    (∀ pu hst, parseUrl url = some pu → pu.scheme ≠ "data" →
      pu.host = some (.name hst) → extract hst = .error () →
      build_domain_tree parseUrl extract merge (url :: rest) t =
        ((build_domain_tree parseUrl extract merge rest
            (insertPath t ["invalid:" ++ hst])).1,
         .tldFailed hst :: (build_domain_tree parseUrl extract merge rest
            (insertPath t ["invalid:" ++ hst])).2)) := by
  constructor
  · intro hp
    cases hb : build_domain_tree parseUrl extract merge rest t with
    | mk t' ws' => simp only [build_domain_tree, domainPath, hp, hb, List.singleton_append]
  · intro pu hst hp hs hh he
    cases hb : build_domain_tree parseUrl extract merge rest
        (insertPath t ["invalid:" ++ hst]) with
    | mk t' ws' =>
      simp only [build_domain_tree, domainPath, hp, if_neg hs, hh, he, hb,
        List.singleton_append]

theorem c8_per_entry_failures_witness :
    build_domain_tree c8ParseUrl c8Extract true ["unparseable", "bad.example"] (.node 0 []) =
      ((build_domain_tree c8ParseUrl c8Extract true ["bad.example"] (.node 0 [])).1,
       .unparseableUrl "unparseable" ::
         (build_domain_tree c8ParseUrl c8Extract true ["bad.example"] (.node 0 [])).2) ∧
    build_domain_tree c8ParseUrl c8Extract true ["bad.example"] (.node 0 []) =
      ((build_domain_tree c8ParseUrl c8Extract true []
          (insertPath (.node 0 []) ["invalid:" ++ "bad.example"])).1,
       .tldFailed "bad.example" :: (build_domain_tree c8ParseUrl c8Extract true []
          (insertPath (.node 0 []) ["invalid:" ++ "bad.example"])).2) :=
  ⟨(c8_per_entry_failures c8ParseUrl c8Extract true "unparseable" ["bad.example"]
      (.node 0 [])).1 rfl,
   (c8_per_entry_failures c8ParseUrl c8Extract true "bad.example" [] (.node 0 [])).2
      ⟨"https", some (.name "bad.example")⟩ "bad.example" rfl (by simp) rfl rfl⟩

/-! ## C9 — the context window never leaves the document -/

/-- C9: the context window construction is total (never panics): every line
it shows is a line of the document, an error at line 0 clamps to the first
line exactly as line 1 does, and the window's end is clamped to the last
line of the document. -/
theorem c9_window_safe (input : String) (line column : ℕ) :
    (∀ x ∈ contextLinesOf input line, x ∈ rustLines input) ∧
    contextLinesOf input 0 = contextLinesOf input 1 ∧
    windowStop (rustLines input).length line ≤ (rustLines input).length ∧
    contextStr input 0 column = contextStr input 1 column := by
  refine ⟨?_, rfl, min_le_right _ _, rfl⟩
  intro x hx
  simp only [contextLinesOf] at hx
  split at hx
  · exact ((List.take_sublist _ _).trans (List.drop_sublist _ _)).mem hx
  · simp at hx

theorem c9_window_safe_witness :
    contextLinesOf "l1\nl2" 0 = contextLinesOf "l1\nl2" 1 ∧
    windowStop (rustLines "l1\nl2").length 9 ≤ (rustLines "l1\nl2").length ∧
    "l2" ∈ rustLines "l1\nl2" :=
  ⟨(c9_window_safe "l1\nl2" 0 1).2.1,
   (c9_window_safe "l1\nl2" 9 1).2.2.1,
   (c9_window_safe "l1\nl2" 1 1).1 "l2" (by decide)⟩

/-! ## C4 — the exact shape of the context block -/

def input12 : String :=
  "l01\nl02\nl03\nl04\nl05\nl06\nl07\nl08\nl09\nl10\nl11\nl12"

/-- C4 counterexample, refuting the claim at two reachable failure
positions.  First, for a 12-line document with the failure at line 6, the
claimed window through 5 lines after the failure line would include line
11, but the window stops at line 10 — the slice's end bound
`line_index + 5` is exclusive, so only 4 lines after the failure line are
shown.  Second, for the one-line document `"{\n"` with an
unexpected-end-of-input failure reported at line 2 column 0 — one line past
the last document line, as such failures are positioned — and likewise for
the empty document, the context block contains no indicator string at all
(no caret), while the claim asserts one beneath the failure line for every
decode failure. -/
theorem c4_counterexample :
    (rustLines input12).length = 12 ∧
    contextLinesOf input12 6 =
      ["l01", "l02", "l03", "l04", "l05", "l06", "l07", "l08", "l09", "l10"] ∧
    "l11" ∉ contextLinesOf input12 6 ∧
    rustLines "\x7b\n" = ["\x7b"] ∧
    contextStr "\x7b\n" 2 0 = "\x7b" ∧
    strContains (contextStr "\x7b\n" 2 0) "^" = false ∧
    contextStr "" 1 0 = "" := by
  refine ⟨by decide, by decide, by decide, by decide, by decide, by decide, by decide⟩

/-- Concatenation of a list of strings. -/
def strJoin : List String → String
  | [] => ""
  | x :: xs => x ++ strJoin xs

/-- What one loop iteration of the context builder appends. -/
def ctxPiece (k column : ℕ) (il : ℕ × String) : String :=
  il.2 ++ "\n" ++ (if il.1 = k then pointerStr column ++ "\n" else "")

theorem ctx_foldl (k column : ℕ) (l : List (ℕ × String)) (acc : String) :
    l.foldl
      (fun acc il =>
        let acc := acc ++ il.2 ++ "\n"
        if il.1 = k then acc ++ pointerStr column ++ "\n" else acc)
      acc = acc ++ strJoin (l.map (ctxPiece k column)) := by
  induction l generalizing acc with
  | nil => simp [strJoin, String.append_empty]
  | cons il rest ih =>
    simp only [List.foldl_cons, List.map_cons, strJoin, ih]
    unfold ctxPiece
    split <;> simp [String.append_assoc, String.append_empty]

theorem join_pieces_miss (k column n : ℕ) (w : List String) (hk : k < n) :
    strJoin ((w.enumFrom n).map (ctxPiece k column)) =
      strJoin (w.map fun l => l ++ "\n") := by
  induction w generalizing n with
  | nil => rfl
  | cons x xs ih =>
    simp only [List.enumFrom, List.map_cons, strJoin, ctxPiece]
    rw [if_neg (by omega : ¬ n = k), ih (n + 1) (by omega)]
    simp [String.append_empty]

theorem join_pieces_below (k column n : ℕ) (w : List String)
    (hk : n + w.length ≤ k) :
    strJoin ((w.enumFrom n).map (ctxPiece k column)) =
      strJoin (w.map fun l => l ++ "\n") := by
  induction w generalizing n with
  | nil => rfl
  | cons x xs ih =>
    have hnk : ¬ n = k := by simp only [List.length_cons] at hk; omega
    have hrec : n + 1 + xs.length ≤ k := by simp only [List.length_cons] at hk; omega
    simp only [List.enumFrom, List.map_cons, strJoin, ctxPiece]
    rw [if_neg hnk, ih (n + 1) hrec]
    simp [String.append_empty]

theorem join_pieces_hit (k column : ℕ) (w : List String) (n : ℕ) (h1 : n ≤ k)
    (h2 : k - n < w.length) :
    strJoin ((w.enumFrom n).map (ctxPiece k column)) =
      strJoin ((w.take (k - n + 1) ++ pointerStr column :: w.drop (k - n + 1)).map
        fun l => l ++ "\n") := by
  induction w generalizing n with
  | nil => simp at h2
  | cons x xs ih =>
    by_cases hnk : n = k
    · subst hnk
      simp only [List.enumFrom, List.map_cons, strJoin, ctxPiece, Nat.sub_self]
      rw [join_pieces_miss n column (n + 1) xs (by omega)]
      simp [strJoin, String.append_assoc, String.append_empty]
    · have hx : k - n = (k - (n + 1)) + 1 := by omega
      simp only [List.enumFrom, List.map_cons, strJoin, ctxPiece]
      rw [if_neg hnk, ih (n + 1) (by omega) (by simp at h2 ⊢; omega), hx]
      simp [strJoin, String.append_assoc, String.append_empty]

theorem strJoin_map_nl (l : List String) (hl : l ≠ []) :
    ∃ t, strJoin (l.map fun x => x ++ "\n") = t ++ "\n" := by
  induction l with
  | nil => exact absurd rfl hl
  | cons x xs ih =>
    cases xs with
    | nil => exact ⟨x, by simp [strJoin, String.append_empty]⟩
    | cons y ys =>
      obtain ⟨t, ht⟩ := ih (by simp)
      refine ⟨x ++ "\n" ++ t, ?_⟩
      simp only [List.map_cons, strJoin] at ht ⊢
      rw [ht]
      simp [String.append_assoc]

theorem endsWithChar_append_nl (t : String) : endsWithChar (t ++ "\n") '\n' = true := by
  have h : (t.data ++ ['\n']).getLast? = some '\n' := List.getLast?_concat _
  unfold endsWithChar
  rw [String.data_append]
  simp [h]

theorem popChar_append_nl (t : String) : popChar (t ++ "\n") = t := by
  unfold popChar
  rw [String.data_append]
  show String.mk ((t.data ++ ['\n']).dropLast) = t
  rw [List.dropLast_concat]

/-- C4 (amended): for every decode failure — no restriction on the reported
position — the diagnostic's context block shows a window of source lines
spanning 5 lines before through 4 lines after the failure line (the slice's
end bound `line_index + 5` is exclusive), clamped to the document bounds,
each window line verbatim.  The indicator of exactly `column - 1` spaces
followed by the caret and its label sits directly beneath the failure line
exactly when the failure line falls inside the window; when the reported
line lies beyond the last document line — as an unexpected-end-of-input
failure on a newline-terminated or empty document is positioned — the
context block consists of the window lines alone, with no indicator
anywhere. -/
theorem c4_context_shape (input : String) (line column : ℕ) :
    ((contextLinesOf input line).length =
      windowStop (rustLines input).length line - windowStart line) ∧
    (∀ i, i < (contextLinesOf input line).length →
      (contextLinesOf input line).get? i =
        (rustLines input).get? (windowStart line + i)) ∧
    pointerStr column =
      String.mk (List.replicate (column - 1) ' ') ++ "^-- Error occurred here" ∧
    (line - 1 - windowStart line < (contextLinesOf input line).length →
      contextStr input line column ++ "\n" =
        strJoin (((contextLinesOf input line).take (line - 1 - windowStart line + 1) ++
          pointerStr column ::
            (contextLinesOf input line).drop (line - 1 - windowStart line + 1)).map
          fun l => l ++ "\n")) ∧
    ((contextLinesOf input line).length ≤ line - 1 - windowStart line →
      (contextLinesOf input line = [] → contextStr input line column = "") ∧
      (contextLinesOf input line ≠ [] →
        contextStr input line column ++ "\n" =
          strJoin ((contextLinesOf input line).map fun l => l ++ "\n"))) := by
  have hse : windowStart line ≤ line - 1 := Nat.sub_le _ _
  have hel : windowStop (rustLines input).length line ≤ (rustLines input).length :=
    min_le_right _ _
  have hlen : (contextLinesOf input line).length =
      windowStop (rustLines input).length line - windowStart line := by
    simp only [contextLinesOf]
    split
    · rw [List.length_take, List.length_drop]
      omega
    · simp only [List.length_nil]
      omega
  have henum : (contextLinesOf input line).enum =
      (contextLinesOf input line).enumFrom 0 := rfl
  refine ⟨hlen, ?_, rfl, ?_, ?_⟩
  · intro i hi
    rw [hlen] at hi
    have hw : contextLinesOf input line =
        ((rustLines input).drop (windowStart line)).take
          (windowStop (rustLines input).length line - windowStart line) := by
      simp only [contextLinesOf]
      rw [if_pos (by omega)]
    rw [hw, List.get?_take hi, List.get?_drop]
  · intro hk
    simp only [contextStr]
    rw [ctx_foldl, String.empty_append, henum,
      join_pieces_hit (line - 1 - windowStart line) column (contextLinesOf input line) 0
        (Nat.zero_le _) (by simpa using hk)]
    obtain ⟨t, ht⟩ := strJoin_map_nl
      ((contextLinesOf input line).take (line - 1 - windowStart line + 1) ++
        pointerStr column ::
          (contextLinesOf input line).drop (line - 1 - windowStart line + 1))
      (by simp)
    simp only [Nat.sub_zero] at ht ⊢
    rw [ht, endsWithChar_append_nl, if_pos rfl, popChar_append_nl]
  · intro hk
    constructor
    · intro hw0
      simp only [contextStr]
      rw [hw0]
      rfl
    · intro hwne
      simp only [contextStr]
      rw [ctx_foldl, String.empty_append, henum,
        join_pieces_below (line - 1 - windowStart line) column 0
          (contextLinesOf input line) (by simpa using hk)]
      obtain ⟨t, ht⟩ := strJoin_map_nl (contextLinesOf input line) hwne
      rw [ht, endsWithChar_append_nl, if_pos rfl, popChar_append_nl]

theorem c4_context_shape_witness :
    ((contextLinesOf input12 6).length =
      windowStop (rustLines input12).length 6 - windowStart 6) ∧
    (contextStr input12 6 3 ++ "\n" =
      strJoin (((contextLinesOf input12 6).take (6 - 1 - windowStart 6 + 1) ++
        pointerStr 3 :: (contextLinesOf input12 6).drop (6 - 1 - windowStart 6 + 1)).map
        fun l => l ++ "\n")) ∧
    (contextStr "\x7b\n" 2 0 ++ "\n" =
      strJoin ((contextLinesOf "\x7b\n" 2).map fun l => l ++ "\n")) ∧
    contextStr "" 1 0 = "" :=
  ⟨(c4_context_shape input12 6 3).1,
   (c4_context_shape input12 6 3).2.2.2.1 (by decide),
   ((c4_context_shape "\x7b\n" 2 0).2.2.2.2 (by decide)).2 (by decide),
   ((c4_context_shape "" 1 0).2.2.2.2 (by decide)).1 (by decide)⟩

/-! ## C10 and C6 — `search_for`'s panic condition and the decode/encode
round trip -/

theorem decHar_entries {v : Json} {h : Har} (hd : decHar v = .ok h) :
    ∃ kvs lkvs arr, v = .obj kvs ∧ lookupField "log" kvs = some (.obj lkvs) ∧
      lookupField "entries" lkvs = some (.arr arr) ∧
      mapE decEntry arr = .ok h.log.entries := by
  unfold decHar at hd
  obtain ⟨kvs, hkvs, hd⟩ := exbind_ok hd
  obtain ⟨lg, hlg, hd⟩ := exbind_ok hd
  simp only [pure, Except.pure, Except.ok.injEq] at hd
  obtain ⟨lv, hlv, hdec⟩ := reqField_ok hlg
  unfold decLog at hdec
  obtain ⟨lkvs, hlkvs, r⟩ := exbind_ok hdec
  obtain ⟨ver, hver, r⟩ := exbind_ok r
  obtain ⟨cr, hcr, r⟩ := exbind_ok r
  obtain ⟨br, hbr, r⟩ := exbind_ok r
  obtain ⟨pg, hpg, r⟩ := exbind_ok r
  obtain ⟨ent, hent, r⟩ := exbind_ok r
  obtain ⟨cm, hcm, r⟩ := exbind_ok r
  simp only [pure, Except.pure, Except.ok.injEq] at r
  obtain ⟨ev, hev, hdecl⟩ := reqField_ok hent
  obtain ⟨arr, harr, hmap⟩ := decList_ok hdecl
  rw [asObj_ok hlkvs] at hlv
  refine ⟨kvs, lkvs, arr, asObj_ok hkvs, hlv, ?_, ?_⟩
  · rw [hev, harr]
  · rw [← hd, ← r]
    exact hmap

/-- C10: `search_for` returns normally exactly when `value["log"]["entries"]`
is an array (and panics — modelled as `none` — otherwise), and an input that
came from a successful decode always has such an array, so the panic branch
is then unreachable.  The model is a pure function of its input, so the
input is never mutated. -/
theorem c10_search_for_totality (v : Json) (s : String) :
    ((search_for v s).isSome ↔
      ∃ entries, (v.index "log").index "entries" = .arr entries) ∧
    (∀ h : Har, decHar v = .ok h → (search_for v s).isSome) := by
  constructor
  · simp only [search_for]
    cases hj : (v.index "log").index "entries" <;> simp
  · intro h hd
    obtain ⟨kvs, lkvs, arr, hv, hlog, hent, _⟩ := decHar_entries hd
    subst hv
    have h2 : ((Json.obj kvs).index "log").index "entries" = .arr arr := by
      simp [Json.index, hlog, hent]
    simp [search_for, h2]

def sampleReq : Json := .obj [
  ("method", .str "GET"), ("url", .str "https://example.com/"),
  ("httpVersion", .str "HTTP/1.1"), ("cookies", .arr []), ("headers", .arr []),
  ("queryString", .arr []), ("headersSize", .num (-1)), ("bodySize", .num 0)]

def sampleResp : Json := .obj [
  ("status", .num 200), ("statusText", .str "OK"), ("httpVersion", .str "HTTP/1.1"),
  ("cookies", .arr []), ("headers", .arr []), ("redirectURL", .str ""),
  ("content", .obj []), ("headersSize", .num (-1)), ("bodySize", .num 0)]

def sampleEntry : Json := .obj [
  ("startedDateTime", .str "2024-01-01T00:00:00Z"), ("time", .num 1),
  ("request", sampleReq), ("response", sampleResp), ("cache", .obj []),
  ("timings", .obj [])]

def sampleDoc : Json := .obj [("log", .obj [
  ("version", .str "1.2"),
  ("creator", .obj [("name", .str "c"), ("version", .str "1")]),
  ("entries", .arr [sampleEntry])])]

def sampleHar : Har :=
  ⟨⟨"1.2", ⟨"c", "1", none⟩, none, none,
    [⟨none, "2024-01-01T00:00:00Z", 1,
      ⟨"GET", "https://example.com/", "HTTP/1.1", [], [], [], none, -1, 0, none⟩,
      ⟨200, "OK", "HTTP/1.1", [], [], "", none, -1, 0, none⟩,
      ⟨none, none, none⟩, none, none, none, none⟩], none⟩⟩

theorem c10_search_for_totality_witness : (search_for sampleDoc "x").isSome :=
  (c10_search_for_totality sampleDoc "x").2 sampleHar (by rfl)

/-- C6: a decode/encode round trip preserves the entries exactly — the
decoded entry list has the length of the source array, position by position
(the `i`-th decoded entry comes from the `i`-th array element), and the
re-encoded document's entries array maps that list in order, so no entry is
dropped, added, or reordered. -/
theorem c6_roundtrip (v : Json) (h : Har) (hd : decHar v = .ok h) :
    ∃ arr, (v.index "log").index "entries" = .arr arr ∧
      h.log.entries.length = arr.length ∧
      (∀ i, (arr.get? i).bind (fun j => okOf (decEntry j)) = h.log.entries.get? i) ∧
      ((encHar h).index "log").index "entries" = .arr (h.log.entries.map encEntry) ∧
      (h.log.entries.map encEntry).length = arr.length := by
  obtain ⟨kvs, lkvs, arr, hv, hlog, hent, hmap⟩ := decHar_entries hd
  subst hv
  refine ⟨arr, ?_, mapE_ok_length hmap, mapE_ok_get hmap, ?_, ?_⟩
  · simp [Json.index, hlog, hent]
  · rfl
  · rw [List.length_map]
    exact mapE_ok_length hmap

theorem c6_roundtrip_witness :
    ∃ arr, (sampleDoc.index "log").index "entries" = .arr arr ∧
      sampleHar.log.entries.length = arr.length ∧
      (∀ i, (arr.get? i).bind (fun j => okOf (decEntry j)) =
        sampleHar.log.entries.get? i) ∧
      ((encHar sampleHar).index "log").index "entries" =
        .arr (sampleHar.log.entries.map encEntry) ∧
      (sampleHar.log.entries.map encEntry).length = arr.length :=
  c6_roundtrip sampleDoc sampleHar (by rfl)

/-! ## C3 — the fifteen searched fields, their order, and inclusion -/

/-- The fifteen named fields of one entry in declaration order — entry-level
field first, then the request fields, then the response fields — each with
its serialized text. -/
def entryFieldTexts (entry : Json) : List (String × String) :=
  let request := entry.index "request"
  let response := entry.index "response"
  [("time", (entry.index "startedDateTime").display),
   ("request_method", (request.index "method").display),
   ("request_url", (request.index "url").display),
   ("request_http_version", (request.index "httpVersion").display),
   ("request_headers", (request.index "headers").display),
   ("request_cookies", (request.index "cookies").display),
   ("request_query_string", (request.index "queryString").display),
   ("request_post_data", (request.index "postData").display),
   ("response_status", (response.index "status").display),
   ("response_status_text", (response.index "statusText").display),
   ("response_http_version", (response.index "httpVersion").display),
   ("response_headers", (response.index "headers").display),
   ("response_cookies", (response.index "cookies").display),
   ("response_content", (response.index "content").display),
   ("response_redirect_url", (response.index "redirectURL").display)]

/-- Sequentially push the names whose text contains the query. -/
def pushMatched (s : String) : List (String × String) → List String
  | [] => []
  | (n, t) :: rest => (if strContains t s then [n] else []) ++ pushMatched s rest

theorem pushMatched_eq_filter (s : String) (ps : List (String × String)) :
    pushMatched s ps = (ps.filter fun p => strContains p.2 s).map Prod.fst := by
  induction ps with
  | nil => rfl
  | cons p rest ih =>
    obtain ⟨n, t⟩ := p
    by_cases hc : strContains t s
    · simp [pushMatched, List.filter_cons, hc, ih]
    · simp [pushMatched, List.filter_cons, hc, ih]

theorem processEntry_in_fields (s : String) (i : ℕ) (e : Json) :
    processEntry s i e =
      (if ((entryFieldTexts e).filter fun p => strContains p.2 s).map Prod.fst = []
       then none
       else some ⟨i + 1, (e.index "startedDateTime").display,
        ((e.index "request").index "url").display,
        ((e.index "request").index "method").display,
        ((entryFieldTexts e).filter fun p => strContains p.2 s).map Prod.fst,
        e.index "request"⟩) := by
  have hpm : processEntry s i e =
      (if (pushMatched s (entryFieldTexts e)).isEmpty then none
       else some ⟨i + 1, (e.index "startedDateTime").display,
        ((e.index "request").index "url").display,
        ((e.index "request").index "method").display,
        pushMatched s (entryFieldTexts e), e.index "request"⟩) := rfl
  rw [hpm, pushMatched_eq_filter]
  cases ((entryFieldTexts e).filter fun p => strContains p.2 s).map Prod.fst with
  | nil => rfl
  | cons x xs => rfl

/-- What the spec says `search` does: keep every entry for which at least
one of the fifteen fields matched, carrying that entry's matching field
names in declaration order. -/
def searchForSpec (entries : List Json) (s : String) : List SearchResult :=
  entries.enum.filterMap fun ie =>
    let fs := ((entryFieldTexts ie.2).filter fun p => strContains p.2 s).map Prod.fst
    if fs = [] then none
    else some ⟨ie.1 + 1, (ie.2.index "startedDateTime").display,
      ((ie.2.index "request").index "url").display,
      ((ie.2.index "request").index "method").display, fs, ie.2.index "request"⟩

/-- C3: over an entries array, `search_for` is exactly the spec's search — a
result for precisely the entries with at least one matching field, whose
`in_fields` is the ordered filter of the fifteen declaration-order field
names by "serialized text contains the query", never re-sorted.  The second
conjunct spells out the inclusion condition per entry. -/
theorem c3_search_fields (v : Json) (s : String) (entries : List Json)
    (he : (v.index "log").index "entries" = .arr entries) :
    search_for v s = some (searchForSpec entries s) ∧
    (∀ i e, (processEntry s i e).isSome ↔
      ∃ p ∈ entryFieldTexts e, strContains p.2 s) := by
  constructor
  · simp only [search_for, he]
    refine congrArg some (List.filterMap_congr ?_)
    intro ie _
    rw [processEntry_in_fields]
  · intro i e
    rw [processEntry_in_fields]
    split
    next hfs =>
      rw [List.map_eq_nil, List.filter_eq_nil] at hfs
      simp only [Option.isSome_none, Bool.false_eq_true, false_iff]
      rintro ⟨p, hp, hc⟩
      exact hfs p hp hc
    next hfs =>
      simp only [Option.isSome_some, true_iff]
      rcases hl : (entryFieldTexts e).filter (fun p => strContains p.2 s) with _ | ⟨x, xs⟩
      · rw [hl] at hfs; simp at hfs
      · have hmem : x ∈ (entryFieldTexts e).filter fun p => strContains p.2 s := by
          rw [hl]; exact List.mem_cons_self x xs
        rw [List.mem_filter] at hmem
        exact ⟨x, hmem.1, hmem.2⟩

theorem c3_search_fields_witness :
    search_for sampleDoc "OK" = some (searchForSpec [sampleEntry] "OK") ∧
    ((processEntry "OK" 0 sampleEntry).isSome ↔
      ∃ p ∈ entryFieldTexts sampleEntry, strContains p.2 "OK") ∧
    searchForSpec [sampleEntry] "OK" =
      [⟨1, "2024-01-01T00:00:00Z", "https://example.com/", "GET",
        ["response_status_text"], sampleReq⟩] :=
  ⟨(c3_search_fields sampleDoc "OK" [sampleEntry] (by rfl)).1,
   (c3_search_fields sampleDoc "OK" [sampleEntry] (by rfl)).2 0 sampleEntry,
   by rfl⟩

/-! ## C7 — the time-window filter -/

/-- An entry's parsed start time, when the entry is an object whose
`startedDateTime` member is a string that parses. -/
def entryTime {τ : Type} (parse : String → Option τ) (entry : Json) : Option τ :=
  match entry with
  | .obj ekvs =>
    match lookupField "startedDateTime" ekvs with
    | some (.str s) => parse s
    | _ => none
  | _ => none

theorem keepEntry_eq_entryTime {τ : Type} [LinearOrder τ] (parse : String → Option τ)
    (time : τ) (after : Bool) (entry : Json) :
    keepEntry parse time after entry =
      match entryTime parse entry with
      | some t => if after then decide (time ≤ t) else decide (t ≤ time)
      | none => false := by
  cases entry with
  | obj ekvs =>
    simp only [keepEntry, entryTime]
    cases lookupField "startedDateTime" ekvs with
    | none => rfl
    | some j => cases j <;> rfl
  | null => rfl
  | bool b => rfl
  | num q => rfl
  | str s => rfl
  | arr elems => rfl

/-- C7: applying the filter for the `before` bound and then for the `after`
bound — as the caller does — retains exactly the entries whose parsed start
time lies inside `[after, before]`, drops every entry whose start time fails
to parse, and preserves the relative order of the survivors (the result is a
`List.filter` of the original entries array). -/
theorem c7_time_window {τ : Type} [LinearOrder τ] (parse : String → Option τ)
    (kvs lkvs : List (String × Json)) (entries : List Json) (bfr aft : τ)
    (hlog : lookupField "log" kvs = some (.obj lkvs))
    (hent : lookupField "entries" lkvs = some (.arr entries)) :
    ∃ v₂, (filter_by_time parse (.obj kvs) bfr false).bind
        (fun v₁ => filter_by_time parse v₁ aft true) = some v₂ ∧
      ∃ kvs₂ lkvs₂, v₂ = .obj kvs₂ ∧ lookupField "log" kvs₂ = some (.obj lkvs₂) ∧
        lookupField "entries" lkvs₂ =
          some (.arr (entries.filter fun e =>
            match entryTime parse e with
            | some t => decide (aft ≤ t) && decide (t ≤ bfr)
            | none => false)) := by
  have h1 : filter_by_time parse (.obj kvs) bfr false =
      some (.obj (updateField "log"
        (.obj (updateField "entries"
          (.arr (entries.filter (keepEntry parse bfr false))) lkvs)) kvs)) := by
    simp only [filter_by_time, hlog, hent]
  have hlog1 : lookupField "log" (updateField "log"
      (.obj (updateField "entries"
        (.arr (entries.filter (keepEntry parse bfr false))) lkvs)) kvs) =
      some (.obj (updateField "entries"
        (.arr (entries.filter (keepEntry parse bfr false))) lkvs)) :=
    lookup_update_hit _ hlog
  have hent1 : lookupField "entries" (updateField "entries"
      (.arr (entries.filter (keepEntry parse bfr false))) lkvs) =
      some (.arr (entries.filter (keepEntry parse bfr false))) :=
    lookup_update_hit _ hent
  have h2 : filter_by_time parse (.obj (updateField "log"
      (.obj (updateField "entries"
        (.arr (entries.filter (keepEntry parse bfr false))) lkvs)) kvs)) aft true =
      some (.obj (updateField "log"
        (.obj (updateField "entries"
          (.arr ((entries.filter (keepEntry parse bfr false)).filter
            (keepEntry parse aft true)))
          (updateField "entries"
            (.arr (entries.filter (keepEntry parse bfr false))) lkvs)))
        (updateField "log"
          (.obj (updateField "entries"
            (.arr (entries.filter (keepEntry parse bfr false))) lkvs)) kvs))) := by
    simp only [filter_by_time, hlog1, hent1]
  refine ⟨_, by rw [h1, Option.some_bind, h2], _, _, rfl,
    lookup_update_hit _ hlog1, ?_⟩
  rw [lookup_update_hit _ hent1]
  refine congrArg (fun l => some (Json.arr l)) ?_
  rw [List.filter_filter]
  refine List.filter_congr ?_
  intro e _
  rw [keepEntry_eq_entryTime, keepEntry_eq_entryTime]
  cases entryTime parse e with
  | none => rfl
  | some t => rfl

def c7Parse : String → Option ℕ := fun s =>
  if s = "t5" then some 5 else if s = "t7" then some 7
  else if s = "t9" then some 9 else none

def c7Entries : List Json :=
  [.obj [("startedDateTime", .str "t5")],
   .obj [("startedDateTime", .str "t7")],
   .obj [("startedDateTime", .str "t9")],
   .obj [("startedDateTime", .str "bad")],
   .obj [("other", .null)],
   .str "not-an-object"]

theorem c7_time_window_witness :
    ∃ v₂, (filter_by_time c7Parse
        (.obj [("log", .obj [("entries", .arr c7Entries)])]) 8 false).bind
        (fun v₁ => filter_by_time c7Parse v₁ 6 true) = some v₂ ∧
      ∃ kvs₂ lkvs₂, v₂ = .obj kvs₂ ∧ lookupField "log" kvs₂ = some (.obj lkvs₂) ∧
        lookupField "entries" lkvs₂ =
          some (.arr (c7Entries.filter fun e =>
            match entryTime c7Parse e with
            | some t => decide (6 ≤ t) && decide (t ≤ 8)
            | none => false)) :=
  c7_time_window c7Parse [("log", .obj [("entries", .arr c7Entries)])]
    [("entries", .arr c7Entries)] c7Entries 8 6 (by rfl) (by rfl)

/-- The composed window on the concrete run keeps exactly the one entry
whose parsed time lies in `[6, 8]`, in order. -/
theorem c7_concrete_filter :
    c7Entries.filter (fun e =>
      match entryTime c7Parse e with
      | some t => decide (6 ≤ t) && decide (t ≤ 8)
      | none => false) = [.obj [("startedDateTime", .str "t7")]] := by
  rfl

end Harper
